import Mathlib

/-!
Verification of the debt-tracker core: a shallow embedding of the data model,
derivation engine, command handlers, persistence effects and legacy migration
of the application, together with proofs of the specified properties.

Modelling conventions:
* JS numbers holding money amounts are modelled as rationals (`ℚ`).
* Date strings are modelled by their timeline value (`new Date(s).getTime()`),
  an `Int`, since the code only ever compares dates through `getTime()`.
  Locale display formatting (`formatDate`) is presentation and is omitted;
  the raw date value is kept in chart points.
* `localStorage` is the blob store: one optional slot per storage key,
  holding the parsed (deserialized) collection.
* Only the state the handlers mutate semantically is modelled
  (`debts`, `payments`, `selectedDebtId`, `aiAnalysis`); modal-visibility
  and controlled-form-field bookkeeping is presentation-only and omitted.
* Generated ids (`crypto.randomUUID()`) and the current time are passed in
  as explicit parameters.
-/

namespace DebtTracker

/-- Tone of an advisory analysis (`types.ts`). -/
inductive Tone where
  | positive
  | neutral
  | concerned
deriving DecidableEq

/-- `AnalysisResult` from `types.ts`. -/
structure AnalysisResult where
  message : String
  estimatedCompletion : Option String
  tone : Tone
deriving DecidableEq

/-- `Debt` from `types.ts`. -/
structure Debt where
  id : String
  creditorName : String
  totalAmount : ℚ
  startDate : Int
deriving DecidableEq

/-- `Payment` from `types.ts`. -/
structure Payment where
  id : String
  debtId : String
  date : Int
  amount : ℚ
  note : String
deriving DecidableEq

/-- One point of the balance-history series produced by `chartData`. -/
structure ChartPoint where
  date : Int
  balance : ℚ
  paid : ℚ
deriving DecidableEq

/-- The legacy single-debt settings blob (`debt_tracker_settings_v1`). -/
structure LegacySettings where
  isSet : Bool
  creditorName : String
  totalAmount : ℚ
  startDate : Int
deriving DecidableEq

/-- A legacy payment record (`debt_tracker_payments_v1`): no `debtId` field. -/
structure LegacyPayment where
  id : String
  date : Int
  amount : ℚ
  note : String
deriving DecidableEq

/-- The relevant React component state of `App`. -/
structure AppState where
  debts : List Debt
  payments : List Payment
  selectedDebtId : Option String
  aiAnalysis : Option AnalysisResult
deriving DecidableEq

/-- The blob store (`localStorage`), one slot per storage key, holding
parsed collections.  `none` models an absent key. -/
structure BlobStore where
  debtsKey : Option (List Debt)
  paymentsKey : Option (List Payment)
  legacySettings : Option LegacySettings
  legacyPayments : Option (List LegacyPayment)
deriving DecidableEq

/-! ## Derivation engine -/

/-- `payments.filter(p => p.debtId === debtId)` (the `currentDebtPayments`
memo, generalised over the debt id). -/
def paymentsFor (payments : List Payment) (debtId : String) : List Payment :=
  payments.filter fun p => p.debtId = debtId

/-- `currentDebtPayments.reduce((acc, curr) => acc + curr.amount, 0)`. -/
def totalPaid (payments : List Payment) (debtId : String) : ℚ :=
  (paymentsFor payments debtId).foldl (fun acc p => acc + p.amount) 0

/-- `Math.max(0, selectedDebt.totalAmount - totalPaid)`. -/
def remainingDebt (d : Debt) (payments : List Payment) : ℚ :=
  max 0 (d.totalAmount - totalPaid payments d.id)

/-- `Math.min(100, (totalPaid / selectedDebt.totalAmount) * 100)`. -/
def progressPercentage (d : Debt) (payments : List Payment) : ℚ :=
  min 100 (totalPaid payments d.id / d.totalAmount * 100)

/-- The sort key relation of
`sort((a, b) => new Date(a.date).getTime() - new Date(b.date).getTime())`. -/
def paymentDateLe (a b : Payment) : Prop :=
  a.date ≤ b.date

instance : DecidableRel paymentDateLe := fun a b =>
  inferInstanceAs (Decidable (a.date ≤ b.date))

instance : IsTotal Payment paymentDateLe :=
  ⟨fun a b => Int.le_total a.date b.date⟩

instance : IsTrans Payment paymentDateLe :=
  ⟨fun _ _ _ h h' => le_trans h h'⟩

/-- The stable ascending-by-date sort performed on `[...currentDebtPayments]`
(ECMAScript `Array.prototype.sort` is stable). -/
def sortPayments (l : List Payment) : List Payment :=
  List.insertionSort paymentDateLe l

/-- The `forEach` loop of `chartData`: running balance `currentBalance`
decreases by each payment's amount and each pushed point clamps the running
balance at zero. -/
def chartPoints (bal : ℚ) : List Payment → List ChartPoint
  | [] => []
  | p :: ps => ⟨p.date, max 0 (bal - p.amount), p.amount⟩ :: chartPoints (bal - p.amount) ps

/-- The `chartData` memo for a given debt: the synthetic starting point
followed by one point per payment in sorted order. -/
def chartData (d : Debt) (payments : List Payment) : List ChartPoint :=
  ⟨d.startDate, d.totalAmount, 0⟩ ::
    chartPoints d.totalAmount (sortPayments (paymentsFor payments d.id))

/-! ## Claim C1 -/

lemma foldl_add_amount (l : List Payment) (a : ℚ) :
    l.foldl (fun acc p => acc + p.amount) a = a + (l.map Payment.amount).sum := by
  induction l generalizing a with
  | nil => simp
  | cons p ps ih => simp [List.foldl_cons, ih, add_assoc]

lemma totalPaid_eq_sum (payments : List Payment) (debtId : String) :
    totalPaid payments debtId = ((paymentsFor payments debtId).map Payment.amount).sum := by
  simp [totalPaid, foldl_add_amount]

/-- Claim C1: for every debt, the derived remaining balance equals
`max 0 (totalAmount - totalPaid)` where `totalPaid` is the sum of the amounts
of the payments whose `debtId` matches, the derived progress percentage
equals `min 100 (totalPaid / totalAmount * 100)`, and consequently
`0 ≤ remaining` and `progressPercentage ≤ 100` hold regardless of cumulative
overpayment. -/
theorem claim_c1 (d : Debt) (payments : List Payment) :
    totalPaid payments d.id = ((paymentsFor payments d.id).map Payment.amount).sum ∧
    remainingDebt d payments = max 0 (d.totalAmount - totalPaid payments d.id) ∧
    progressPercentage d payments = min 100 (totalPaid payments d.id / d.totalAmount * 100) ∧
    0 ≤ remainingDebt d payments ∧
    progressPercentage d payments ≤ 100 := by
  refine ⟨totalPaid_eq_sum payments d.id, rfl, rfl, ?_, ?_⟩
  · exact le_max_left 0 _
  · exact min_le_left 100 _

/-! ## Claim C2 -/

/-- Spec-side description of the balance series: the `k`-th balance is the
total amount minus the sum of the first `k + 1` sorted payment amounts,
floored at zero. -/
def specBalanceSeq (total : ℚ) (amts : List ℚ) : List ℚ :=
  (List.range amts.length).map fun k => max 0 (total - ((amts.take (k + 1)).sum))

lemma chartPoints_length (bal : ℚ) (ps : List Payment) :
    (chartPoints bal ps).length = ps.length := by
  induction ps generalizing bal with
  | nil => rfl
  | cons p ps ih => simp [chartPoints, ih]

lemma chartPoints_map_paid (bal : ℚ) (ps : List Payment) :
    (chartPoints bal ps).map ChartPoint.paid = ps.map Payment.amount := by
  induction ps generalizing bal with
  | nil => rfl
  | cons p ps ih => simp [chartPoints, ih]

lemma chartPoints_map_date (bal : ℚ) (ps : List Payment) :
    (chartPoints bal ps).map ChartPoint.date = ps.map Payment.date := by
  induction ps generalizing bal with
  | nil => rfl
  | cons p ps ih => simp [chartPoints, ih]

lemma chartPoints_map_balance (ps : List Payment) (bal : ℚ) :
    (chartPoints bal ps).map ChartPoint.balance = specBalanceSeq bal (ps.map Payment.amount) := by
  induction ps generalizing bal with
  | nil => rfl
  | cons p ps ih =>
    rw [chartPoints, List.map_cons, ih, specBalanceSeq, specBalanceSeq]
    simp only [List.length_map, List.length_cons, List.range_succ_eq_map, List.map_cons,
      List.map_map]
    congr 1
    · simp
    · refine List.map_congr_left ?_
      intro k _
      simp only [Function.comp_apply, Nat.succ_eq_add_one, List.map_cons, List.take_succ_cons,
        List.sum_cons]
      congr 1
      ring

/-- Stability of a single ordered insertion: filtering the result at any
fixed date yields the insertion (at the front) into the filtered list when
the inserted payment has that date, and the unchanged filtered list
otherwise. -/
lemma filter_orderedInsert (t : Int) (p : Payment) (l : List Payment) :
    (List.orderedInsert paymentDateLe p l).filter (fun q => q.date = t) =
      if p.date = t then p :: l.filter (fun q => q.date = t)
      else l.filter (fun q => q.date = t) := by
  induction l with
  | nil => by_cases hp : p.date = t <;> simp [List.orderedInsert, hp]
  | cons b l ih =>
    by_cases hpb : paymentDateLe p b
    · by_cases hp : p.date = t <;> simp [List.orderedInsert, hpb, hp]
    · have hlt : b.date < p.date := by
        simpa [paymentDateLe, not_le] using hpb
      by_cases hp : p.date = t
      · have hb : ¬ b.date = t := by omega
        simp [List.orderedInsert, hpb, ih, hp, hb]
      · by_cases hb : b.date = t <;> simp [List.orderedInsert, hpb, ih, hp, hb]

/-- Stability of the whole sort: for every date, the subsequence of payments
carrying that date is unchanged (ties are broken by original insertion
order). -/
lemma filter_sortPayments (t : Int) (l : List Payment) :
    (sortPayments l).filter (fun q => q.date = t) = l.filter (fun q => q.date = t) := by
  induction l with
  | nil => rfl
  | cons p l ih =>
    rw [sortPayments, List.insertionSort] at *
    rw [filter_orderedInsert]
    by_cases hp : p.date = t <;> simp [hp, ih]

lemma chartPoints_chain (ps : List Payment) (bal : ℚ) (h : ∀ p ∈ ps, 0 ≤ p.amount) :
    List.Chain' (fun x y : ChartPoint => y.balance ≤ x.balance) (chartPoints bal ps) ∧
    (∀ c, (chartPoints bal ps).head? = some c → c.balance ≤ max 0 bal) := by
  induction ps generalizing bal with
  | nil => simp [chartPoints]
  | cons p ps ih =>
    have hp : 0 ≤ p.amount := h p (by simp)
    have hrest := ih (bal - p.amount) fun q hq => h q (by simp [hq])
    constructor
    · rw [chartPoints, List.chain'_cons']
      refine ⟨fun y hy => ?_, hrest.1⟩
      exact hrest.2 y (Option.mem_def.mp hy)
    · intro c hc
      rw [chartPoints, List.head?_cons, Option.some_inj] at hc
      subst hc
      exact max_le_max le_rfl (sub_le_self bal hp)

/-- Claim C2: for every debt the balance-history series has the synthetic
starting point `⟨startDate, totalAmount, 0⟩` as head, one point per payment
of that debt in stable ascending-by-date order carrying that payment's date
and amount, balances given by the running total minus cumulative payments
floored at zero; its length is the number of that debt's payments plus one,
the zero-payment case yields exactly the synthetic point, and if the debt's
total is nonnegative and every payment amount is positive the balance
sequence is monotonically non-increasing. -/
theorem claim_c2 (d : Debt) (payments : List Payment) :
    (chartData d payments).length = (paymentsFor payments d.id).length + 1 ∧
    (paymentsFor payments d.id = [] →
      chartData d payments = [⟨d.startDate, d.totalAmount, 0⟩]) ∧
    (chartData d payments).head? = some ⟨d.startDate, d.totalAmount, 0⟩ ∧
    List.Sorted paymentDateLe (sortPayments (paymentsFor payments d.id)) ∧
    (∀ t : Int, (sortPayments (paymentsFor payments d.id)).filter (fun q => q.date = t) =
      (paymentsFor payments d.id).filter (fun q => q.date = t)) ∧
    (chartData d payments).tail.map ChartPoint.date =
      (sortPayments (paymentsFor payments d.id)).map Payment.date ∧
    (chartData d payments).tail.map ChartPoint.paid =
      (sortPayments (paymentsFor payments d.id)).map Payment.amount ∧
    (chartData d payments).tail.map ChartPoint.balance =
      specBalanceSeq d.totalAmount ((sortPayments (paymentsFor payments d.id)).map Payment.amount) ∧
    (0 ≤ d.totalAmount → (∀ p ∈ paymentsFor payments d.id, 0 < p.amount) →
      List.Chain' (fun x y : ChartPoint => y.balance ≤ x.balance) (chartData d payments)) := by
  refine ⟨?_, ?_, rfl, ?_, ?_, ?_, ?_, ?_, ?_⟩
  · rw [chartData]
    simp [chartPoints_length, sortPayments, List.length_insertionSort]
  · intro h
    rw [chartData, h]
    rfl
  · exact List.sorted_insertionSort paymentDateLe _
  · exact fun t => filter_sortPayments t _
  · exact chartPoints_map_date _ _
  · exact chartPoints_map_paid _ _
  · exact chartPoints_map_balance _ _
  · intro h0 hpos
    have hmem : ∀ p ∈ sortPayments (paymentsFor payments d.id), 0 ≤ p.amount := by
      intro p hp
      have : p ∈ paymentsFor payments d.id := by
        rw [sortPayments] at hp
        exact (List.mem_insertionSort paymentDateLe).mp hp
      exact le_of_lt (hpos p this)
    have hch := chartPoints_chain (sortPayments (paymentsFor payments d.id)) d.totalAmount hmem
    rw [chartData, List.chain'_cons']
    refine ⟨fun y hy => ?_, hch.1⟩
    have := hch.2 y (Option.mem_def.mp hy)
    calc y.balance ≤ max 0 d.totalAmount := this
      _ = d.totalAmount := max_eq_right h0

/-- Concrete debt used to instantiate universally quantified theorems
(spec scenario: total 1000). -/
def wDebt : Debt := ⟨"d1", "Ana", 1000, 0⟩

/-- Concrete payments used to instantiate universally quantified theorems
(spec scenario: payments 200, 300, 600). -/
def wPayments : List Payment :=
  [⟨"p1", "d1", 10, 200, ""⟩, ⟨"p2", "d1", 20, 300, ""⟩, ⟨"p3", "d1", 30, 600, ""⟩]

theorem claim_c2_witness :
    paymentsFor [] wDebt.id = [] ∧
    chartData wDebt [] = [⟨0, 1000, 0⟩] ∧
    (0 : ℚ) ≤ wDebt.totalAmount ∧
    (∀ p ∈ paymentsFor wPayments wDebt.id, 0 < p.amount) ∧
    List.Chain' (fun x y : ChartPoint => y.balance ≤ x.balance) (chartData wDebt wPayments) :=
  ⟨rfl, (claim_c2 wDebt []).2.1 rfl, by decide, by decide,
    (claim_c2 wDebt wPayments).2.2.2.2.2.2.2.2 (by decide) (by decide)⟩

/-! ## Command handlers -/

/-- `handleCreateDebt`: rejects when the creditor field or the raw total
field is the empty string (the only falsy strings), otherwise appends a debt
whose `totalAmount` is the parsed total.  `parsedTotal` stands for
`parseFloat(newTotalDebt)` (its value on inputs where the parse yields a
finite number); the handler performs no further validation of it. -/
def handleCreateDebt (s : AppState) (newCreditor newTotalRaw : String) (parsedTotal : ℚ)
    (freshId : String) (now : Int) : AppState :=
  if newCreditor = "" ∨ newTotalRaw = "" then s
  else { s with debts := s.debts ++ [⟨freshId, newCreditor, parsedTotal, now⟩] }

/-- `handleDeleteDebt` (the branch where the user confirms the dialog):
filters out the debt and every payment referencing it, clearing the
selection when it pointed at the deleted debt. -/
def handleDeleteDebt (s : AppState) (debtId : String) : AppState :=
  { s with
    debts := s.debts.filter fun d => d.id ≠ debtId
    payments := s.payments.filter fun p => p.debtId ≠ debtId
    selectedDebtId := if s.selectedDebtId = some debtId then none else s.selectedDebtId }

/-- `handleAddPayment`: rejects when the raw amount field is empty or no
debt is selected, otherwise appends a payment for the selected debt and
clears the advisory cache.  `parsedAmount` stands for
`parseFloat(newPaymentAmount)`; the handler performs no further validation
of it and does not check that the selected id references an existing debt. -/
def handleAddPayment (s : AppState) (rawAmount : String) (parsedAmount : ℚ)
    (date : Int) (note : String) (freshId : String) : AppState :=
  if rawAmount = "" then s
  else
    match s.selectedDebtId with
    | none => s
    | some sid =>
      { s with
        payments := s.payments ++ [⟨freshId, sid, date, parsedAmount, note⟩]
        aiAnalysis := none }

/-- `handleDeletePayment` (confirmed branch): filters the payment out and
clears the advisory cache. -/
def handleDeletePayment (s : AppState) (pid : String) : AppState :=
  { s with
    payments := s.payments.filter fun p => p.id ≠ pid
    aiAnalysis := none }

/-- The `selectedDebt` memo: `debts.find(d => d.id === selectedDebtId)`. -/
def findDebt (debts : List Debt) (sid : String) : Option Debt :=
  debts.find? fun d => d.id = sid

/-- `handleSaveTotal`: rejects when no selected debt is found or the raw
field is empty or the parsed total is `NaN` (modelled by `none`) or
nonpositive; otherwise updates the targeted debt's `totalAmount` in place
and clears the advisory cache.  `parsed : Option ℚ` covers only the `NaN`
(`none`) and finite (`some`) outcomes of `parseFloat`; the infinite
outcomes, which this handler's guard mishandles, are modelled in full by
`JSNum` and `saveTotalRejects` below (claim C7). -/
def handleSaveTotal (s : AppState) (raw : String) (parsed : Option ℚ) : AppState :=
  match s.selectedDebtId.bind (findDebt s.debts) with
  | none => s
  | some sel =>
    if raw = "" then s
    else
      match parsed with
      | none => s
      | some newTotal =>
        if newTotal ≤ 0 then s
        else
          { s with
            debts := s.debts.map fun d =>
              if d.id = sel.id then { d with totalAmount := newTotal } else d
            aiAnalysis := none }

/-! ## Claim C3 -/

/-- The referential-integrity invariant: every payment's `debtId` references
an existing debt. -/
def NoOrphans (s : AppState) : Prop :=
  ∀ p ∈ s.payments, ∃ d ∈ s.debts, d.id = p.debtId

instance (s : AppState) : Decidable (NoOrphans s) :=
  inferInstanceAs (Decidable (∀ p ∈ s.payments, ∃ d ∈ s.debts, d.id = p.debtId))

/-- Claim C3 is false as stated: from a state with no payments (hence
trivially orphan-free) whose selection id references no existing debt,
`handleAddPayment` appends an orphan payment, because the handler checks
only that the selection is non-null, not that it references a debt. -/
theorem claim_c3_counterexample :
    NoOrphans ⟨[], [], some "g", none⟩ ∧
    ¬ NoOrphans (handleAddPayment ⟨[], [], some "g", none⟩ "5" 5 0 "" "p1") := by
  decide

/-- Claim C3 (amended): starting from a state in which every payment's
`debtId` references an existing debt, create debt, delete debt, delete
payment and edit total preserve the property; add payment preserves it
provided the selected debt id references an existing debt; and deleting a
debt leaves no payment referencing the deleted id. -/
theorem claim_c3 (s : AppState) (h : NoOrphans s)
    (newCreditor newTotalRaw : String) (parsedTotal : ℚ) (freshId : String) (now : Int)
    (did : String) (rawAmount : String) (parsedAmount : ℚ) (date : Int) (note fidP : String)
    (pid : String) (raw : String) (parsed : Option ℚ) :
    NoOrphans (handleCreateDebt s newCreditor newTotalRaw parsedTotal freshId now) ∧
    NoOrphans (handleDeleteDebt s did) ∧
    (∀ p ∈ (handleDeleteDebt s did).payments, p.debtId ≠ did) ∧
    ((∃ d ∈ s.debts, some d.id = s.selectedDebtId) →
      NoOrphans (handleAddPayment s rawAmount parsedAmount date note fidP)) ∧
    NoOrphans (handleDeletePayment s pid) ∧
    NoOrphans (handleSaveTotal s raw parsed) := by
  refine ⟨?_, ?_, ?_, ?_, ?_, ?_⟩
  · intro p hp
    by_cases hc : newCreditor = "" ∨ newTotalRaw = ""
    · simp only [handleCreateDebt, if_pos hc] at hp ⊢
      exact h p hp
    · simp only [handleCreateDebt, if_neg hc] at hp ⊢
      obtain ⟨d, hd, hid⟩ := h p hp
      exact ⟨d, List.mem_append_left _ hd, hid⟩
  · intro p hp
    simp only [handleDeleteDebt, List.mem_filter, decide_eq_true_eq] at hp ⊢
    obtain ⟨d, hd, hid⟩ := h p hp.1
    exact ⟨d, ⟨hd, by rw [hid]; exact hp.2⟩, hid⟩
  · intro p hp
    simp only [handleDeleteDebt, List.mem_filter, decide_eq_true_eq] at hp
    exact hp.2
  · rintro ⟨d0, hd0, hsel⟩ p hp
    by_cases hr : rawAmount = ""
    · simp only [handleAddPayment, if_pos hr] at hp ⊢
      exact h p hp
    · simp only [handleAddPayment, if_neg hr] at hp ⊢
      cases hs : s.selectedDebtId with
      | none =>
        simp only [hs] at hp
        exact h p hp
      | some sid =>
        simp only [hs, List.mem_append, List.mem_singleton] at hp
        rcases hp with hp | hp
        · obtain ⟨d, hd, hid⟩ := h p hp
          exact ⟨d, hd, hid⟩
        · subst hp
          refine ⟨d0, hd0, ?_⟩
          rw [hs] at hsel
          simpa using hsel
  · intro p hp
    simp only [handleDeletePayment, List.mem_filter, decide_eq_true_eq] at hp ⊢
    exact h p hp.1
  · intro p hp
    cases hsel : s.selectedDebtId.bind (findDebt s.debts) with
    | none =>
      have he : handleSaveTotal s raw parsed = s := by
        simp only [handleSaveTotal, hsel]
      rw [he] at hp ⊢
      exact h p hp
    | some sel =>
      by_cases hr : raw = ""
      · have he : handleSaveTotal s raw parsed = s := by
          simp only [handleSaveTotal, hsel, if_pos hr]
        rw [he] at hp ⊢
        exact h p hp
      · cases parsed with
        | none =>
          have he : handleSaveTotal s raw none = s := by
            simp only [handleSaveTotal, hsel, if_neg hr]
          rw [he] at hp ⊢
          exact h p hp
        | some q =>
          by_cases hq : q ≤ 0
          · have he : handleSaveTotal s raw (some q) = s := by
              simp only [handleSaveTotal, hsel, if_neg hr, if_pos hq]
            rw [he] at hp ⊢
            exact h p hp
          · have he : handleSaveTotal s raw (some q) =
                { s with
                  debts := s.debts.map fun d =>
                    if d.id = sel.id then { d with totalAmount := q } else d
                  aiAnalysis := none } := by
              simp only [handleSaveTotal, hsel, if_neg hr, if_neg hq]
            rw [he] at hp ⊢
            obtain ⟨d, hd, hid⟩ := h p hp
            refine ⟨if d.id = sel.id then { d with totalAmount := q } else d, ?_, ?_⟩
            · exact List.mem_map_of_mem _ hd
            · by_cases hds : d.id = sel.id
              · rw [if_pos hds]; exact hid
              · rw [if_neg hds]; exact hid

/-- Concrete one-debt one-payment state with a valid selection, used to
instantiate universally quantified theorems. -/
def s3w : AppState :=
  ⟨[⟨"d1", "Ana", 1000, 0⟩], [⟨"p1", "d1", 10, 200, ""⟩], some "d1", none⟩

theorem claim_c3_witness :
    NoOrphans s3w ∧ (∃ d ∈ s3w.debts, some d.id = s3w.selectedDebtId) ∧
    NoOrphans (handleAddPayment s3w "50" 50 40 "x" "p9") :=
  ⟨by decide, by decide,
    (claim_c3 s3w (by decide) "X" "5" 5 "d2" 0 "d1" "50" 50 40 "x" "p9" "p1" "150"
      (some 150)).2.2.2.1 (by decide)⟩

/-! ## Claims C5 and C6 -/

/-- Claim C5 fails on the handler: with a non-empty creditor and the raw
total "-5" (which parses to -5), `handleCreateDebt` appends a debt whose
`totalAmount` is negative instead of rejecting the input; the handler
validates only non-emptiness of the two strings. -/
theorem claim_c5_bug :
    (handleCreateDebt ⟨[], [], none, none⟩ "X" "-5" (-5) "d1" 0).debts
      = [⟨"d1", "X", -5, 0⟩] ∧
    ((-5 : ℚ) < 0) := by
  decide

/-- Claim C6 fails on the handler: with a valid selection and the raw amount
"-5" (which parses to -5), `handleAddPayment` appends a payment whose
`amount` is negative; and with a selection id referencing no existing debt
it appends an orphan payment.  The handler validates only non-emptiness of
the raw amount and non-nullity of the selection. -/
theorem claim_c6_bug :
    (handleAddPayment ⟨[⟨"d1", "X", 100, 0⟩], [], some "d1", none⟩ "-5" (-5) 0 "" "p1").payments
      = [⟨"p1", "d1", 0, -5, ""⟩] ∧
    ((-5 : ℚ) < 0) ∧
    (handleAddPayment ⟨[], [], some "ghost", none⟩ "5" 5 0 "" "p2").payments
      = [⟨"p2", "ghost", 0, 5, ""⟩] := by
  decide

/-! ## Claim C7 -/

/-- The possible results of `parseFloat`: `NaN`, `+Infinity`, `-Infinity`,
or a finite number. -/
inductive JSNum where
  | nan
  | posInf
  | negInf
  | finite (q : ℚ)
deriving DecidableEq

/-- JavaScript `isNaN(x)` on a `parseFloat` result. -/
def JSNum.isNaN : JSNum → Bool
  | nan => true
  | _ => false

/-- JavaScript `x <= 0` on a `parseFloat` result (false for `NaN`). -/
def JSNum.leZero : JSNum → Bool
  | nan => false
  | posInf => false
  | negInf => true
  | finite q => decide (q ≤ 0)

/-- Whether a `parseFloat` result is a finite positive number. -/
def JSNum.isFinitePositive : JSNum → Bool
  | finite q => decide (0 < q)
  | _ => false

/-- The rejection guard of `handleSaveTotal` over the full numeric domain
of `parseFloat`: `isNaN(newTotal) || newTotal <= 0`. -/
def saveTotalRejects (newTotal : JSNum) : Bool :=
  newTotal.isNaN || newTotal.leZero

/-- Claim C7 fails on the code: the guard of `handleSaveTotal`
(`isNaN(newTotal) || newTotal <= 0`) accepts `+Infinity` — produced, e.g.,
by `parseFloat("1e309")` — which is not a finite positive number, and the
handler then stores it as the targeted debt's `totalAmount`.  The guard has
no finiteness check: the accepted values are exactly the finite positive
numbers together with `+Infinity`.  On the finite-or-`NaN` fragment the
guard agrees with the `Option ℚ` embedding used by `handleSaveTotal`. -/
theorem claim_c7_bug :
    saveTotalRejects JSNum.posInf = false ∧
    JSNum.isFinitePositive JSNum.posInf = false ∧
    (∀ n : JSNum, saveTotalRejects n = false ↔
      (n = JSNum.posInf ∨ n.isFinitePositive = true)) ∧
    saveTotalRejects JSNum.nan = true ∧
    (∀ q : ℚ, saveTotalRejects (JSNum.finite q) = true ↔ q ≤ 0) := by
  refine ⟨rfl, rfl, ?_, rfl, ?_⟩
  · intro n
    cases n with
    | nan => simp [saveTotalRejects, JSNum.isNaN, JSNum.leZero, JSNum.isFinitePositive]
    | posInf => simp [saveTotalRejects, JSNum.isNaN, JSNum.leZero]
    | negInf => simp [saveTotalRejects, JSNum.isNaN, JSNum.leZero, JSNum.isFinitePositive]
    | finite q =>
      simp [saveTotalRejects, JSNum.isNaN, JSNum.leZero, JSNum.isFinitePositive, not_le]
  · intro q
    simp [saveTotalRejects, JSNum.isNaN, JSNum.leZero]

/-! ## Claim C9 -/

/-- Claim C9 is false as stated: a successful `handleCreateDebt` (debt
appended) and a successful `handleDeleteDebt` (debt removed) both leave a
previously cached advisory result in place instead of invalidating it. -/
theorem claim_c9_counterexample :
    (handleCreateDebt ⟨[], [], none, some ⟨"m", none, Tone.neutral⟩⟩ "X" "5" 5 "d1" 0).debts
      = [⟨"d1", "X", 5, 0⟩] ∧
    (handleCreateDebt ⟨[], [], none, some ⟨"m", none, Tone.neutral⟩⟩ "X" "5" 5
        "d1" 0).aiAnalysis = some ⟨"m", none, Tone.neutral⟩ ∧
    (handleDeleteDebt ⟨[⟨"d1", "X", 5, 0⟩], [], some "d1",
        some ⟨"m", none, Tone.neutral⟩⟩ "d1").debts = [] ∧
    (handleDeleteDebt ⟨[⟨"d1", "X", 5, 0⟩], [], some "d1",
        some ⟨"m", none, Tone.neutral⟩⟩ "d1").aiAnalysis
      = some ⟨"m", none, Tone.neutral⟩ := by
  decide

/-- Claim C9 (amended): successful add payment, delete payment and edit
total reset the advisory cache to empty; create debt and delete debt leave
the cache exactly as it was. -/
theorem claim_c9 (s : AppState) (newCreditor newTotalRaw : String) (parsedTotal : ℚ)
    (freshId : String) (now : Int) (did : String) (rawA : String) (qA : ℚ) (dt : Int)
    (note fidP pid : String) (rawE : String) (parsedE : Option ℚ) :
    (∀ sid, s.selectedDebtId = some sid → rawA ≠ "" →
      (handleAddPayment s rawA qA dt note fidP).aiAnalysis = none) ∧
    (handleDeletePayment s pid).aiAnalysis = none ∧
    (∀ sel q, s.selectedDebtId.bind (findDebt s.debts) = some sel → rawE ≠ "" →
      parsedE = some q → 0 < q → (handleSaveTotal s rawE parsedE).aiAnalysis = none) ∧
    (handleCreateDebt s newCreditor newTotalRaw parsedTotal freshId now).aiAnalysis
      = s.aiAnalysis ∧
    (handleDeleteDebt s did).aiAnalysis = s.aiAnalysis := by
  refine ⟨?_, rfl, ?_, ?_, rfl⟩
  · intro sid hsid hraw
    simp [handleAddPayment, if_neg hraw, hsid]
  · intro sel q hsel hraw hq hpos
    subst hq
    simp [handleSaveTotal, hsel, if_neg hraw, if_neg (not_le.mpr hpos)]
  · by_cases hc : newCreditor = "" ∨ newTotalRaw = "" <;>
      simp [handleCreateDebt, hc]

/-- Concrete state with a cached advisory result, used to instantiate
`claim_c9`. -/
def s9 : AppState :=
  ⟨[⟨"d1", "X", 100, 0⟩], [], some "d1", some ⟨"m", none, Tone.neutral⟩⟩

theorem claim_c9_witness :
    s9.selectedDebtId = some "d1" ∧
    (handleAddPayment s9 "50" 50 0 "" "p9").aiAnalysis = none ∧
    (handleSaveTotal s9 "150" (some 150)).aiAnalysis = none :=
  ⟨rfl,
    (claim_c9 s9 "X" "5" 5 "d2" 0 "d1" "50" 50 0 "" "p9" "p1" "150" (some 150)).1
      "d1" rfl (by decide),
    (claim_c9 s9 "X" "5" 5 "d2" 0 "d1" "50" 50 0 "" "p9" "p1" "150" (some 150)).2.2.1
      ⟨"d1", "X", 100, 0⟩ 150 (by decide) (by decide) rfl (by decide)⟩

/-! ## Claim C10 -/

/-- Claim C10: deletion is framed.  Deleting a debt yields sublists of the
two collections (relative order preserved) in which every other debt and
every payment referencing another debt survives and only matching records
are gone; deleting a payment leaves the debts collection identical, keeps
every other payment in order, and deleting an absent payment id leaves the
payments collection exactly as it was. -/
theorem claim_c10 (s : AppState) (did pid : String) :
    (handleDeleteDebt s did).debts.Sublist s.debts ∧
    (∀ d ∈ s.debts, d.id ≠ did → d ∈ (handleDeleteDebt s did).debts) ∧
    (∀ d ∈ (handleDeleteDebt s did).debts, d ∈ s.debts ∧ d.id ≠ did) ∧
    (handleDeleteDebt s did).payments.Sublist s.payments ∧
    (∀ p ∈ s.payments, p.debtId ≠ did → p ∈ (handleDeleteDebt s did).payments) ∧
    (∀ p ∈ (handleDeleteDebt s did).payments, p ∈ s.payments ∧ p.debtId ≠ did) ∧
    (handleDeletePayment s pid).debts = s.debts ∧
    (handleDeletePayment s pid).payments.Sublist s.payments ∧
    (∀ p ∈ s.payments, p.id ≠ pid → p ∈ (handleDeletePayment s pid).payments) ∧
    ((∀ p ∈ s.payments, p.id ≠ pid) → (handleDeletePayment s pid).payments = s.payments) := by
  refine ⟨List.filter_sublist _, ?_, ?_, List.filter_sublist _, ?_, ?_, rfl,
    List.filter_sublist _, ?_, ?_⟩
  · intro d hd hne
    simp only [handleDeleteDebt, List.mem_filter, decide_eq_true_eq]
    exact ⟨hd, hne⟩
  · intro d hd
    simpa only [handleDeleteDebt, List.mem_filter, decide_eq_true_eq] using hd
  · intro p hp hne
    simp only [handleDeleteDebt, List.mem_filter, decide_eq_true_eq]
    exact ⟨hp, hne⟩
  · intro p hp
    simpa only [handleDeleteDebt, List.mem_filter, decide_eq_true_eq] using hp
  · intro p hp hne
    simp only [handleDeletePayment, List.mem_filter, decide_eq_true_eq]
    exact ⟨hp, hne⟩
  · intro hall
    simp only [handleDeletePayment]
    refine List.filter_eq_self.mpr ?_
    intro p hp
    simpa using hall p hp

/-- Concrete two-debt, two-payment state used to instantiate `claim_c10`. -/
def s10 : AppState :=
  ⟨[⟨"d1", "A", 100, 0⟩, ⟨"d2", "B", 200, 0⟩],
    [⟨"p1", "d1", 0, 10, ""⟩, ⟨"p2", "d2", 0, 20, ""⟩], none, none⟩

theorem claim_c10_witness :
    (⟨"d2", "B", 200, 0⟩ : Debt) ∈ (handleDeleteDebt s10 "d1").debts ∧
    (handleDeletePayment s10 "zzz").payments = s10.payments :=
  ⟨(claim_c10 s10 "d1" "zzz").2.1 ⟨"d2", "B", 200, 0⟩ (by decide) (by decide),
    (claim_c10 s10 "d1" "zzz").2.2.2.2.2.2.2.2.2 (by decide)⟩

/-! ## Persistence effects and claim C8 -/

/-- The debts persistence effect: writes the debts key when the collection
is non-empty; when it is empty, writes an explicit empty collection only if
the key already exists (the stored JSON string of any collection is
non-empty and hence truthy). -/
def persistDebts (blob : BlobStore) (debts : List Debt) : BlobStore :=
  if debts.length > 0 then { blob with debtsKey := some debts }
  else if blob.debtsKey.isSome then { blob with debtsKey := some [] }
  else blob

/-- The payments persistence effect: writes the payments key only when the
payments collection or the debts collection is non-empty. -/
def persistPayments (blob : BlobStore) (payments : List Payment) (debts : List Debt) :
    BlobStore :=
  if payments.length > 0 ∨ debts.length > 0 then { blob with paymentsKey := some payments }
  else blob

/-- Both persistence effects, as they run after a state commit. -/
def persistAll (blob : BlobStore) (debts : List Debt) (payments : List Payment) : BlobStore :=
  persistPayments (persistDebts blob debts) payments debts

/-- Concrete single debt used in the claim C8 failing scenario. -/
def d8 : Debt := ⟨"d1", "X", 100, 0⟩

/-- Concrete single payment (on `d8`) used in the claim C8 failing
scenario. -/
def p8 : Payment := ⟨"p1", "d1", 0, 40, ""⟩

/-- Claim C8 fails on the code: starting from one debt with one payment,
both already persisted, deleting that last debt empties both in-memory
collections and the debts key is rewritten to the empty collection — but
the payments persistence effect skips its write (both collections are now
empty), leaving the stale pre-delete payment list under the payments key
instead of an empty collection. -/
theorem claim_c8_bug :
    (handleDeleteDebt ⟨[d8], [p8], some "d1", none⟩ "d1").debts = [] ∧
    (handleDeleteDebt ⟨[d8], [p8], some "d1", none⟩ "d1").payments = [] ∧
    (persistAll ⟨some [d8], some [p8], none, none⟩
      (handleDeleteDebt ⟨[d8], [p8], some "d1", none⟩ "d1").debts
      (handleDeleteDebt ⟨[d8], [p8], some "d1", none⟩ "d1").payments).debtsKey = some [] ∧
    (persistAll ⟨some [d8], some [p8], none, none⟩
      (handleDeleteDebt ⟨[d8], [p8], some "d1", none⟩ "d1").debts
      (handleDeleteDebt ⟨[d8], [p8], some "d1", none⟩ "d1").payments).paymentsKey
      = some [p8] ∧
    some [p8] ≠ some ([] : List Payment) := by
  decide

/-! ## Migration and claim C4 -/

/-- The result of the initialization effect: the two in-memory collections
and the blob store after any migration writes. -/
structure InitResult where
  debts : List Debt
  payments : List Payment
  blob : BlobStore
deriving DecidableEq

/-- The initialization-and-migration effect: load the current-version
collections if the debts key exists (payments default to empty when their
key is absent); otherwise, if legacy settings exist and are marked as set,
synthesize one debt from them (with the freshly generated id), re-tag every
legacy payment with that id, and write both synthesized collections to the
current-version keys immediately, leaving the legacy keys untouched.
A legacy parse failure is caught in the source and leaves the empty state;
the blob store here holds parsed values, so the claim's premise that the
legacy blob parses successfully is built into the model. -/
def initApp (blob : BlobStore) (freshId : String) : InitResult :=
  match blob.debtsKey with
  | some ds => ⟨ds, blob.paymentsKey.getD [], blob⟩
  | none =>
    match blob.legacySettings with
    | some oldSettings =>
      if oldSettings.isSet then
        ⟨[⟨freshId, oldSettings.creditorName, oldSettings.totalAmount, oldSettings.startDate⟩],
          (blob.legacyPayments.getD []).map fun p => ⟨p.id, freshId, p.date, p.amount, p.note⟩,
          { blob with
            debtsKey := some [⟨freshId, oldSettings.creditorName, oldSettings.totalAmount,
              oldSettings.startDate⟩]
            paymentsKey := some ((blob.legacyPayments.getD []).map
              fun p => ⟨p.id, freshId, p.date, p.amount, p.note⟩) }⟩
      else ⟨[], [], blob⟩
    | none => ⟨[], [], blob⟩

/-- Claim C4: when no current-version debts collection exists and the
legacy settings are marked set, migration produces exactly one debt whose
creditor name, total amount and start date are copied from the legacy
settings and whose id is the freshly generated one; every legacy payment is
re-tagged with that id while its other fields are carried over unchanged;
both synthesized collections are written under the current-version keys
immediately and both legacy keys are left untouched. -/
theorem claim_c4 (blob : BlobStore) (freshId : String) (ls : LegacySettings)
    (h1 : blob.debtsKey = none) (h2 : blob.legacySettings = some ls)
    (h3 : ls.isSet = true) :
    (initApp blob freshId).debts
      = [⟨freshId, ls.creditorName, ls.totalAmount, ls.startDate⟩] ∧
    (initApp blob freshId).payments = (blob.legacyPayments.getD []).map
      (fun p => ⟨p.id, freshId, p.date, p.amount, p.note⟩) ∧
    (initApp blob freshId).blob.debtsKey = some (initApp blob freshId).debts ∧
    (initApp blob freshId).blob.paymentsKey = some (initApp blob freshId).payments ∧
    (initApp blob freshId).blob.legacySettings = blob.legacySettings ∧
    (initApp blob freshId).blob.legacyPayments = blob.legacyPayments ∧
    (∀ p ∈ (initApp blob freshId).payments, p.debtId = freshId) ∧
    (initApp blob freshId).payments.map Payment.id
      = (blob.legacyPayments.getD []).map LegacyPayment.id ∧
    (initApp blob freshId).payments.map Payment.date
      = (blob.legacyPayments.getD []).map LegacyPayment.date ∧
    (initApp blob freshId).payments.map Payment.amount
      = (blob.legacyPayments.getD []).map LegacyPayment.amount ∧
    (initApp blob freshId).payments.map Payment.note
      = (blob.legacyPayments.getD []).map LegacyPayment.note := by
  have he : initApp blob freshId =
      ⟨[⟨freshId, ls.creditorName, ls.totalAmount, ls.startDate⟩],
        (blob.legacyPayments.getD []).map fun p => ⟨p.id, freshId, p.date, p.amount, p.note⟩,
        { blob with
          debtsKey := some [⟨freshId, ls.creditorName, ls.totalAmount, ls.startDate⟩]
          paymentsKey := some ((blob.legacyPayments.getD []).map
            fun p => ⟨p.id, freshId, p.date, p.amount, p.note⟩) }⟩ := by
    simp only [initApp, h1, h2, h3, if_true]
  rw [he]
  refine ⟨rfl, rfl, rfl, rfl, rfl, rfl, ?_, ?_, ?_, ?_, ?_⟩
  · intro p hp
    simp only [List.mem_map] at hp
    obtain ⟨q, _, hq⟩ := hp
    rw [← hq]
  · simp [List.map_map, Function.comp]
  · simp [List.map_map, Function.comp]
  · simp [List.map_map, Function.comp]
  · simp [List.map_map, Function.comp]

/-- The spec's migration example: legacy settings
`{isSet: true, creditorName: "Ana", totalAmount: 500, startDate: ...}` and
one legacy payment of amount 100. -/
def blob4 : BlobStore :=
  ⟨none, none, some ⟨true, "Ana", 500, 20240101⟩, some [⟨"p1", 20240201, 100, ""⟩]⟩

theorem claim_c4_witness :
    (initApp blob4 "debt-1").debts = [⟨"debt-1", "Ana", 500, 20240101⟩] ∧
    (initApp blob4 "debt-1").payments = [⟨"p1", "debt-1", 20240201, 100, ""⟩] ∧
    (initApp blob4 "debt-1").blob.legacySettings = blob4.legacySettings :=
  ⟨(claim_c4 blob4 "debt-1" ⟨true, "Ana", 500, 20240101⟩ rfl rfl rfl).1,
    ((claim_c4 blob4 "debt-1" ⟨true, "Ana", 500, 20240101⟩ rfl rfl rfl).2.1).trans
      (by decide),
    (claim_c4 blob4 "debt-1" ⟨true, "Ana", 500, 20240101⟩ rfl rfl rfl).2.2.2.2.1⟩

end DebtTracker
